import Mathlib

/-!
Verification of the structure-detection, chunking and response-reassembly
pipeline of an Excel OLAP add-in.  The definitions below are shallow
embeddings of the TypeScript sources `src/utils/data-processor.ts` and
`src/utils/response-parser.ts`: grids are lists of lists of strings,
JavaScript numbers are modelled as `Nat`/`Int`/`ℚ` (exact arithmetic; the
rounding of decimal literals to binary64 is abstracted away), `undefined`
and absent optional fields are modelled with `Option`, and functions that
`throw` return `Except String`.
-/

/-- `Math.ceil(a / b)` on non-negative integers, as the code computes chunk
counts.  For `b = 0` JavaScript would produce `Infinity` and the chunking
loop would never terminate; the theorems therefore assume a positive
`maxCellsPerChunk`. -/
def jsCeilDiv (a b : Nat) : Nat := (a + b - 1) / b

-- ========== data-processor.ts : data model ==========

/-- `RangeStructure` from data-processor.ts. -/
structure RangeStructure where
  povMembers : List (List String)
  columnHeaders : List String
  rowHeaders : List String
  dataStartRow : Nat
  dataStartCol : Nat
  totalRows : Nat
  totalCols : Nat
  isEmpty : Bool
deriving DecidableEq, Repr

/-- `DimensionMember` from data-processor.ts (the optional `level` and
`parent` fields are never set by the pipeline and are omitted). -/
structure DimensionMember where
  dimension : String
  member : String
deriving DecidableEq, Repr

/-- `DimensionData` from data-processor.ts; `povDimensions` is an
insertion-ordered string-keyed object, modelled as an association list, so
that `Object.values` is `List.map Prod.snd`. -/
structure DimensionData where
  povDimensions : List (String × List String)
  columnDimensions : List String
  rowDimensions : List String
  memberCombinations : List (List DimensionMember)
deriving DecidableEq, Repr

/-- `ChunkingStrategy` from data-processor.ts. -/
structure ChunkingStrategy where
  maxPayloadSize : Nat
  maxCellsPerChunk : Nat
  chunkByDimension : Bool
  preserveStructure : Bool
deriving DecidableEq, Repr

/-- One entry of `GridDefinition.columns` / `GridDefinition.rows`:
`\x7b dimensions?: string[]; members: string[][] \x7d`. -/
structure AxisDef where
  dimensions : Option (List String)
  members : List (List String)
deriving DecidableEq, Repr

/-- `GridDefinition` from data-processor.ts.  The optional `pov` object has
the single field `members`, inlined here as `Option (List (List String))`. -/
structure GridDefinition where
  exportPlanningData : Bool
  suppressMissingBlocks : Bool
  pov : Option (List (List String))
  columns : List AxisDef
  rows : List AxisDef
deriving DecidableEq, Repr

/-- `ChunkMetadata.originalRange` from data-processor.ts (fields can be
`-1` for degenerate structures, hence `Int`). -/
structure OriginalRange where
  startRow : Int
  startCol : Int
  endRow : Int
  endCol : Int
deriving DecidableEq, Repr

/-- `ChunkMetadata.dimensionRanges` from data-processor.ts. -/
structure DimensionRanges where
  povStart : Int
  povEnd : Int
  columnStart : Int
  columnEnd : Int
  rowStart : Int
  rowEnd : Int
deriving DecidableEq, Repr

/-- `ChunkMetadata.processingHints` from data-processor.ts. -/
structure ProcessingHints where
  requiresTransformation : Bool
  hasFormulas : Bool
  hasConditionalData : Bool
deriving DecidableEq, Repr

/-- `ChunkMetadata` from data-processor.ts. -/
structure ChunkMetadata where
  originalRange : OriginalRange
  dimensionRanges : DimensionRanges
  processingHints : ProcessingHints
deriving DecidableEq, Repr

/-- `DataChunk` from data-processor.ts.  The source builds `chunkId` as
`chunk_<index>_<Date.now()>`; the wall-clock suffix is time-dependent and
is abstracted away. -/
structure DataChunk where
  chunkId : String
  chunkIndex : Nat
  totalChunks : Nat
  gridDefinition : GridDefinition
  estimatedCells : Nat
  estimatedSize : Nat
  metadata : ChunkMetadata
deriving DecidableEq, Repr

-- ========== data-processor.ts : identifyStructure ==========

/-- The JavaScript test `row[0] !== ""` used by `identifyStructure` to find
the first data row: for a zero-length row, `row[0]` is `undefined` and
`undefined !== ""` holds, so an empty row counts as having column-0
content. -/
def jsColZeroNonEmpty (row : List String) : Bool :=
  match row with
  | [] => true
  | c :: _ => decide (c ≠ "")

/-- The `RangeStructure` returned by `identifyStructure` for an empty
range (all fields empty/zero, `isEmpty = true`). -/
def emptyRangeStructure : RangeStructure :=
  { povMembers := [], columnHeaders := [], rowHeaders := [],
    dataStartRow := 0, dataStartCol := 0, totalRows := 0, totalCols := 0,
    isEmpty := true }

/-- `identifyStructure` from data-processor.ts.  An empty range returns the
`isEmpty` sentinel; a row 0 without non-empty cells throws
`Could not find header start`; if no row passes `row[0] !== ""` it throws
`Could not find data row start`.  `Math.max(0, firstDataRow - 1)` is
truncated `Nat` subtraction.  For the legacy `rowHeaders` field the source
maps `row => row[0]`; `row[0]` of a zero-length row (`undefined`) is
modelled as `""`. -/
def identifyStructure (range : List (List String)) : Except String RangeStructure :=
  if range.isEmpty then
    Except.ok emptyRangeStructure
  else
    match (range.headD []).findIdx? (fun cell => decide (cell ≠ "")) with
    | none => Except.error "Could not find header start"
    | some firstHeaderCol =>
      match range.findIdx? jsColZeroNonEmpty with
      | none => Except.error "Could not find data row start"
      | some firstDataRow =>
        Except.ok
          { povMembers :=
              ((range.take (firstDataRow - 1)).map
                (fun row => (row.drop firstHeaderCol).filter (fun c => decide (c ≠ "")))).filter
                (fun members => decide (0 < members.length)),
            columnHeaders :=
              if 0 < firstDataRow then
                ((range.getD (firstDataRow - 1) []).drop firstHeaderCol).filter
                  (fun c => decide (c ≠ ""))
              else [],
            rowHeaders :=
              ((range.drop firstDataRow).map (fun row => row.headD "")).filter
                (fun h => decide (h ≠ "")),
            dataStartRow := firstDataRow,
            dataStartCol := firstHeaderCol,
            totalRows := range.length,
            totalCols := (range.headD []).length,
            isEmpty := false }

-- ========== data-processor.ts : chunk planning ==========

/-- `estimateCellsFromDimensions`: `(columns.length || 1) * (sum of member
counts || 1)`. -/
def estimateCellsFromDimensions (dims : DimensionData) : Nat :=
  let columnCount := if dims.columnDimensions.length = 0 then 1 else dims.columnDimensions.length
  let rowCount0 := dims.memberCombinations.foldl (fun total combo => total + combo.length) (0 : Nat)
  let rowCount := if rowCount0 = 0 then 1 else rowCount0
  columnCount * rowCount

/-- JSON string escaping as performed by `JSON.stringify` (quote,
backslash, the named control escapes, `\u00XX` for the other control
characters). -/
def jsonEscapeChar (c : Char) : String :=
  if c = '"' then "\\\""
  else if c = '\\' then "\\\\"
  else if c = '\x08' then "\\b"
  else if c = '\x0c' then "\\f"
  else if c = '\n' then "\\n"
  else if c = '\r' then "\\r"
  else if c = '\t' then "\\t"
  else if c.toNat < 32 then
    "\\u00" ++ String.mk [(Nat.digitChar (c.toNat / 16)), (Nat.digitChar (c.toNat % 16))]
  else String.mk [c]

/-- `JSON.stringify` of a string value. -/
def jsonOfString (s : String) : String :=
  "\"" ++ String.join (s.data.map jsonEscapeChar) ++ "\""

/-- `JSON.stringify` of an array given its serialized elements. -/
def jsonArray (xs : List String) : String :=
  "[" ++ String.intercalate "," xs ++ "]"

/-- `JSON.stringify` of a `string[]`. -/
def jsonOfStringList (xs : List String) : String := jsonArray (xs.map jsonOfString)

/-- `JSON.stringify` of a `string[][]`. -/
def jsonOfStringListList (xss : List (List String)) : String :=
  jsonArray (xss.map jsonOfStringList)

/-- `JSON.stringify` of a boolean. -/
def jsonOfBool (b : Bool) : String := if b then "true" else "false"

/-- `JSON.stringify` of one `columns`/`rows` entry; an absent optional
`dimensions` key is omitted, matching `JSON.stringify` on objects built
without the key. -/
def jsonOfAxis (a : AxisDef) : String :=
  (match a.dimensions with
   | some ds => "\x7b\"dimensions\":" ++ jsonOfStringList ds ++ ",\"members\":"
   | none => "\x7b\"members\":")
  ++ jsonOfStringListList a.members ++ "\x7d"

/-- `JSON.stringify(gridDefinition)` with keys in object-literal insertion
order; `pov: undefined` is omitted entirely. -/
def jsonOfGridDefinition (g : GridDefinition) : String :=
  "\x7b\"exportPlanningData\":" ++ jsonOfBool g.exportPlanningData
  ++ ",\"suppressMissingBlocks\":" ++ jsonOfBool g.suppressMissingBlocks
  ++ (match g.pov with
      | some ms => ",\"pov\":\x7b\"members\":" ++ jsonOfStringListList ms ++ "\x7d"
      | none => "")
  ++ ",\"columns\":" ++ jsonArray (g.columns.map jsonOfAxis)
  ++ ",\"rows\":" ++ jsonArray (g.rows.map jsonOfAxis)
  ++ "\x7d"

/-- `estimateChunkSize`: `JSON.stringify(gridDefinition).length * 2 + 1024`
(string length in UTF-16 code units; code points beyond the basic plane
are abstracted as single units). -/
def estimateChunkSize (g : GridDefinition) : Nat :=
  (jsonOfGridDefinition g).length * 2 + 1024

/-- The `pov` field built by `createSingleChunk`:
`Object.keys(povDimensions).length > 0 ? \x7b members: Object.values(povDimensions) \x7d : undefined`. -/
def povOfDimensions (dims : DimensionData) : Option (List (List String)) :=
  if dims.povDimensions.isEmpty then none
  else some (dims.povDimensions.map Prod.snd)

/-- `createSingleChunk` from data-processor.ts. -/
def createSingleChunk (dims : DimensionData) (st : RangeStructure)
    (chunkIndex totalChunks : Nat) : DataChunk :=
  let gridDefinition : GridDefinition :=
    { exportPlanningData := false,
      suppressMissingBlocks := true,
      pov := povOfDimensions dims,
      columns := [{ dimensions := none, members := [dims.columnDimensions] }],
      rows :=
        if 0 < dims.memberCombinations.length then
          [{ dimensions := none,
             members := dims.memberCombinations.map (fun combo => combo.map (fun dm => dm.member)) }]
        else [{ dimensions := none, members := [[]] }] }
  { chunkId := "chunk_" ++ toString chunkIndex,
    chunkIndex := chunkIndex,
    totalChunks := totalChunks,
    gridDefinition := gridDefinition,
    estimatedCells := estimateCellsFromDimensions dims,
    estimatedSize := estimateChunkSize gridDefinition,
    metadata :=
      { originalRange :=
          { startRow := 0, startCol := 0,
            endRow := (st.totalRows : Int) - 1, endCol := (st.totalCols : Int) - 1 },
        dimensionRanges :=
          { povStart := 0, povEnd := (st.dataStartRow : Int) - 1,
            columnStart := (st.dataStartCol : Int), columnEnd := (st.totalCols : Int) - 1,
            rowStart := (st.dataStartRow : Int), rowEnd := (st.totalRows : Int) - 1 },
        processingHints :=
          { requiresTransformation := false, hasFormulas := false,
            hasConditionalData := false } } }

/-- `createDimensionBasedChunks` from data-processor.ts: slice every
member-combination list at multiples of
`membersPerChunk = Math.ceil(first.length / targetChunkCount)`, emitting a
chunk only while `startIndex` is inside the first list
(`Array.prototype.slice(start, end)` is `(drop start).take (end - start)`). -/
def createDimensionBasedChunks (dims : DimensionData) (st : RangeStructure)
    (targetChunkCount : Nat) : List DataChunk :=
  if 0 < dims.memberCombinations.length then
    let len0 := (dims.memberCombinations.headD []).length
    let membersPerChunk := jsCeilDiv len0 targetChunkCount
    (List.range targetChunkCount).filterMap (fun i =>
      let startIndex := i * membersPerChunk
      let endIndex := min (startIndex + membersPerChunk) len0
      if startIndex < len0 then
        some (createSingleChunk
          { dims with
            memberCombinations :=
              dims.memberCombinations.map
                (fun combo => (combo.drop startIndex).take (endIndex - startIndex)) }
          st i targetChunkCount)
      else none)
  else [createSingleChunk dims st 0 1]

/-- `createSizeBasedChunks` from data-processor.ts: falls back to
dimension-based chunking. -/
def createSizeBasedChunks (dims : DimensionData) (st : RangeStructure)
    (targetChunkCount : Nat) : List DataChunk :=
  createDimensionBasedChunks dims st targetChunkCount

/-- `createChunks` from data-processor.ts (the chunk planner; the spec
calls it `planChunks`).  The strategy is the `chunkingStrategy` field of
the enclosing class, passed here explicitly. -/
def createChunks (strat : ChunkingStrategy) (dims : DimensionData)
    (st : RangeStructure) : List DataChunk :=
  let totalCells := estimateCellsFromDimensions dims
  if totalCells ≤ strat.maxCellsPerChunk then
    [createSingleChunk dims st 0 1]
  else
    let chunkCount := jsCeilDiv totalCells strat.maxCellsPerChunk
    if strat.chunkByDimension then createDimensionBasedChunks dims st chunkCount
    else createSizeBasedChunks dims st chunkCount

-- ========== derived accessors used by the theorems ==========

/-- The member slice of the first row dimension carried by a chunk:
the first member list of the first `rows` axis of its grid definition. -/
def chunkFirstSlice (c : DataChunk) : List String :=
  ((c.gridDefinition.rows.headD { dimensions := none, members := [] }).members).headD []

/-- The POV member lists of a grid definition (`[]` when `pov` is absent). -/
def povMembersOfGrid (g : GridDefinition) : List (List String) := g.pov.getD []

/-- The chunk count `Math.ceil(totalCells / maxCellsPerChunk)` requested by
`createChunks` in the multi-chunk branch. -/
def chunkCountOf (strat : ChunkingStrategy) (dims : DimensionData) : Nat :=
  jsCeilDiv (estimateCellsFromDimensions dims) strat.maxCellsPerChunk

/-- The original member list of the first row dimension. -/
def origFirstDim (dims : DimensionData) : List String :=
  (dims.memberCombinations.headD []).map (fun dm => dm.member)

/-- `membersPerChunk` as computed by `createDimensionBasedChunks` when
called from `createChunks`. -/
def mpcOf (strat : ChunkingStrategy) (dims : DimensionData) : Nat :=
  jsCeilDiv (origFirstDim dims).length (chunkCountOf strat dims)

-- ========== response-parser.ts : data model ==========

/-- A JavaScript value written into a cell: `parseValue` returns either a
number or a string. -/
inductive JSValue where
  | num (q : ℚ)
  | str (s : String)
deriving DecidableEq, Repr

/-- `ChunkResponse.status`. -/
inductive RespStatus where
  | success
  | error
  | pending
deriving DecidableEq, Repr

/-- One row of `OLAPResponseData.rows` (its free-form `metadata` object is
never read by the pipeline and is omitted). -/
structure OLAPRow where
  data : List String
  members : Option (List String)
deriving DecidableEq, Repr

/-- One entry of `OLAPResponseData.columns`. -/
structure ColumnInfo where
  name : String
  type : Option String
  format : Option String
deriving DecidableEq, Repr

/-- `OLAPResponseData.metadata` (`queryTime` sums `processingTime`, kept as
`Nat`). -/
structure OLAPMetaData where
  totalRows : Nat
  totalColumns : Nat
  dataSource : String
  queryTime : Nat
deriving DecidableEq, Repr

/-- `OLAPResponseData` from response-parser.ts. -/
structure OLAPResponseData where
  rows : List OLAPRow
  columns : Option (List ColumnInfo)
  metadata : Option OLAPMetaData
deriving DecidableEq, Repr

/-- `ChunkResponse` from response-parser.ts (the fields the assembler
reads). -/
structure ChunkResponse where
  chunkIndex : Nat
  chunkId : String
  status : RespStatus
  data : Option OLAPResponseData
  error : Option String
  actualCells : Option Nat
  processingTime : Option Nat
deriving DecidableEq, Repr

/-- `AssemblyOptions.handleMissingChunks`. -/
inductive MissingMode where
  | error
  | skip
  | interpolate
deriving DecidableEq, Repr

/-- `AssemblyOptions.mergeStrategy`. -/
inductive MergeMode where
  | append
  | overlay
  | smart
deriving DecidableEq, Repr

/-- `AssemblyOptions` from response-parser.ts. -/
structure AssemblyOptions where
  validateIntegrity : Bool
  handleMissingChunks : MissingMode
  sortByChunkIndex : Bool
  mergeStrategy : MergeMode
deriving DecidableEq, Repr

-- ========== response-parser.ts : chunk assembly ==========

/-- A stable insertion of `x` into a sorted list: `x` goes in front of the
first element strictly greater than it, hence after all equal keys. -/
def insertBy (lt : α → α → Bool) (x : α) : List α → List α
  | [] => [x]
  | y :: ys => if lt x y then x :: y :: ys else y :: insertBy lt x ys

/-- A stable sort (insertion sort).  `Array.prototype.sort` with a numeric
comparator is specified to be stable, and a stable sort by a total
preorder has a unique result, so this models the source's sort exactly. -/
def sortStableBy (lt : α → α → Bool) (l : List α) : List α :=
  l.foldl (fun acc x => insertBy lt x acc) []

/-- `response.data?.rows ?? []`. -/
def responseRows (r : ChunkResponse) : List OLAPRow :=
  match r.data with
  | some d => d.rows
  | none => []

/-- The row concatenation both `append` merging and `mergeRowsSmart`
perform (`forEach`/`push` over the responses). -/
def concatRows (rs : List ChunkResponse) : List OLAPRow :=
  rs.foldl (fun acc r => acc ++ responseRows r) []

/-- The predicate of the inner `findIndex` in `mergeRowsSmart`:
`otherRow.members && JSON.stringify(otherRow.members) === JSON.stringify(row.members)`
(JSON serialization of string arrays is injective, so this is list
equality). -/
def matchesMembers (ms : List String) (o : OLAPRow) : Bool :=
  match o.members with
  | some ms2 => decide (ms2 = ms)
  | none => false

/-- The filter predicate of `mergeRowsSmart`: keep a row without `members`;
otherwise keep it iff the first row with deep-equal `members` is the row
itself. -/
def keepRow (allRows : List OLAPRow) (i : Nat) (row : OLAPRow) : Bool :=
  match row.members with
  | none => true
  | some ms => decide (allRows.findIdx? (matchesMembers ms) = some i)

/-- `Array.prototype.filter` with the element index, specialised to
`keepRow` over the full row list. -/
def smartFilterGo (allRows : List OLAPRow) : Nat → List OLAPRow → List OLAPRow
  | _, [] => []
  | i, r :: rest =>
    if keepRow allRows i r then r :: smartFilterGo allRows (i + 1) rest
    else smartFilterGo allRows (i + 1) rest

/-- `mergeRowsSmart` from response-parser.ts. -/
def mergeRowsSmart (rs : List ChunkResponse) : List OLAPRow :=
  let allRows := concatRows rs
  smartFilterGo allRows 0 allRows

/-- `mergeRowsWithOverlay` from response-parser.ts: delegates to
`mergeRowsSmart`. -/
def mergeRowsWithOverlay (rs : List ChunkResponse) : List OLAPRow :=
  mergeRowsSmart rs

/-- Modelled from the spec's merge description (for comparison with the
code): walk the concatenated rows in order keeping a set of the `members`
lists already seen; a row whose `members` list was seen earlier is
removed, rows lacking `members` are always kept. -/
def dedupRowsAux (seen : List (List String)) : List OLAPRow → List OLAPRow
  | [] => []
  | r :: rest =>
    match r.members with
    | none => r :: dedupRowsAux seen rest
    | some ms =>
      if ms ∈ seen then dedupRowsAux (ms :: seen) rest
      else r :: dedupRowsAux (ms :: seen) rest

/-- Spec-side duplicate removal over a row list (see `dedupRowsAux`). -/
def dedupRows (rows : List OLAPRow) : List OLAPRow := dedupRowsAux [] rows

/-- The `successfulResponses` filter of `assembleChunks`:
`r.status === 'success' && r.data`. -/
def successfulResponses (rs : List ChunkResponse) : List ChunkResponse :=
  rs.filter (fun r => decide (r.status = RespStatus.success) && r.data.isSome)

/-- The successful responses in assembly order: sorted by `chunkIndex` when
`sortByChunkIndex` is set. -/
def sortedSuccesses (opts : AssemblyOptions) (rs : List ChunkResponse) : List ChunkResponse :=
  let s := successfulResponses rs
  if opts.sortByChunkIndex then
    sortStableBy (fun a b => decide (a.chunkIndex < b.chunkIndex)) s
  else s

/-- `successfulResponses[0].data!` (the filter guarantees presence; the
default is unreachable). -/
def firstRespData (rs : List ChunkResponse) : OLAPResponseData :=
  match rs with
  | r :: _ => r.data.getD { rows := [], columns := none, metadata := none }
  | [] => { rows := [], columns := none, metadata := none }

/-- `assembleChunks` from response-parser.ts: filter and sort the
successful responses, throw when none remain, return a single success's
`data` unmodified, otherwise merge rows per `mergeStrategy`, take
`columns` from the first success and fill in the assembly metadata
(`totalRows` is set to the merged row count). -/
def assembleChunks (opts : AssemblyOptions) (rs : List ChunkResponse) :
    Except String OLAPResponseData :=
  let succ := sortedSuccesses opts rs
  if succ.length = 0 then Except.error "No successful responses to assemble"
  else if succ.length = 1 then Except.ok (firstRespData succ)
  else
    let rows :=
      match opts.mergeStrategy with
      | MergeMode.append => concatRows succ
      | MergeMode.overlay => mergeRowsWithOverlay succ
      | MergeMode.smart => mergeRowsSmart succ
    let cols := (firstRespData succ).columns
    Except.ok
      { rows := rows,
        columns := cols,
        metadata := some
          { totalRows := rows.length,
            totalColumns := (cols.getD []).length,
            dataSource := "assembled",
            queryTime := succ.foldl (fun s r => s + r.processingTime.getD 0) 0 } }

/-- The row list of an assembly result (`[]` for the thrown case). -/
def rowsOfResult (e : Except String OLAPResponseData) : List OLAPRow :=
  match e with
  | Except.ok d => d.rows
  | Except.error _ => []

-- ========== response-parser.ts : value parsing and cell mapping ==========

/-- The white-space characters `parseFloat` skips (restricted to the ASCII
white space actually occurring in cell strings). -/
def isJsWhitespace (c : Char) : Bool :=
  decide (c = ' ') || decide (c = '\t') || decide (c = '\n') || decide (c = '\r')

/-- The numeric value of a digit run (most significant first). -/
def digitsToNat (ds : List Char) : Nat :=
  ds.foldl (fun a c => a * 10 + (c.toNat - 48)) 0

/-- The exponent contributed by a valid `e`/`E` exponent suffix starting at
the given characters; an absent or incomplete exponent contributes 0, as
`parseFloat` stops before it. -/
def parseExponentPart (cs : List Char) : Int :=
  match cs with
  | 'e' :: rest =>
    (match rest with
     | '+' :: r2 => (digitsToNat (r2.takeWhile Char.isDigit) : Int)
     | '-' :: r2 =>
       if (r2.takeWhile Char.isDigit).isEmpty then 0
       else -(digitsToNat (r2.takeWhile Char.isDigit) : Int)
     | r2 => (digitsToNat (r2.takeWhile Char.isDigit) : Int))
  | 'E' :: rest =>
    (match rest with
     | '+' :: r2 => (digitsToNat (r2.takeWhile Char.isDigit) : Int)
     | '-' :: r2 =>
       if (r2.takeWhile Char.isDigit).isEmpty then 0
       else -(digitsToNat (r2.takeWhile Char.isDigit) : Int)
     | r2 => (digitsToNat (r2.takeWhile Char.isDigit) : Int))
  | _ => 0

/-- `parseFloat` on a character list: skip leading white space, an optional
sign, then the longest `digits [. digits] [exponent]` prefix; `none` when
no digits occur before the exponent (JavaScript `NaN`; the `Infinity`
literal, which the callers' `isFinite` guard rejects anyway, is also
`none`).  The value `sign * int.frac * 10 ^ exponent` is built as one
exact rational with `mkRat` (numerator `sign * mantissa-digits`, a power
of ten as denominator, the exponent folded into whichever side keeps both
integral); rounding to binary64 is abstracted. -/
def parseFloatList (cs0 : List Char) : Option ℚ :=
  let cs := cs0.dropWhile isJsWhitespace
  let sign : Int := match cs with
    | '-' :: _ => -1
    | _ => 1
  let cs2 := match cs with
    | '-' :: r => r
    | '+' :: r => r
    | _ => cs
  let intDigits := cs2.takeWhile Char.isDigit
  let cs3 := cs2.dropWhile Char.isDigit
  let fracDigits := match cs3 with
    | '.' :: r => r.takeWhile Char.isDigit
    | _ => []
  let cs4 := match cs3 with
    | '.' :: r => r.dropWhile Char.isDigit
    | _ => cs3
  if intDigits.isEmpty && fracDigits.isEmpty then none
  else
    let mantNum : Nat :=
      digitsToNat intDigits * Nat.pow 10 fracDigits.length + digitsToNat fracDigits
    let ex : Int := parseExponentPart cs4
    if 0 ≤ ex then
      some (mkRat (sign * Int.ofNat (mantNum * Nat.pow 10 ex.toNat))
        (Nat.pow 10 fracDigits.length))
    else
      some (mkRat (sign * Int.ofNat mantNum)
        (Nat.pow 10 fracDigits.length * Nat.pow 10 (-ex).toNat))

/-- `parseFloat` on a string. -/
def jsParseFloat (s : String) : Option ℚ := parseFloatList s.data

/-- The binary64 overflow bound `2 ^ 1024` (written as `(2 ^ 32) ^ 32` so
kernel reduction stays shallow). -/
def jsMaxDouble : ℚ := mkRat (Int.ofNat (Nat.pow (Nat.pow 2 32) 32)) 1

/-- `isFinite` on the parsed value: binary64 overflow happens exactly at
magnitudes of `2 ^ 1024` and above (the halfway rounding at the very top
of the double range is abstracted). -/
def jsIsFinite (q : ℚ) : Bool := decide (q < jsMaxDouble) && decide (-jsMaxDouble < q)

/-- `value.startsWith('=')`. -/
def jsStartsWithEq (s : String) : Bool :=
  match s.data with
  | c :: _ => decide (c = '=')
  | [] => false

/-- `CellMapping.dataType`. -/
inductive CellDataType where
  | number
  | string
  | formula
  | empty
deriving DecidableEq, Repr

/-- `CellFormat.textAlign`. -/
inductive TextAlign where
  | left
  | center
  | right
deriving DecidableEq, Repr

/-- `CellFormat.fontWeight`. -/
inductive FontWeight where
  | normal
  | bold
deriving DecidableEq, Repr

/-- `CellFormat.fontStyle`. -/
inductive FontStyle where
  | normal
  | italic
deriving DecidableEq, Repr

/-- `BorderStyle` from response-parser.ts. -/
structure BorderStyle where
  top : Option String
  bottom : Option String
  left : Option String
  right : Option String
deriving DecidableEq, Repr

/-- `CellFormat` from response-parser.ts. -/
structure CellFormat where
  numberFormat : Option String
  fontColor : Option String
  backgroundColor : Option String
  fontWeight : Option FontWeight
  fontStyle : Option FontStyle
  textAlign : Option TextAlign
  borders : Option BorderStyle
deriving DecidableEq, Repr

/-- The `CellFormat` with no field set. -/
def emptyFormat : CellFormat :=
  { numberFormat := none, fontColor := none, backgroundColor := none,
    fontWeight := none, fontStyle := none, textAlign := none, borders := none }

/-- `CellValidation` from response-parser.ts. -/
structure CellValidation where
  isValid : Bool
  errorMessage : Option String
  warningMessage : Option String
deriving DecidableEq, Repr

/-- `CellMapping` from response-parser.ts. -/
structure CellMapping where
  sourceRow : Nat
  sourceCol : Nat
  targetRow : Nat
  targetCol : Nat
  value : JSValue
  dataType : CellDataType
  formatting : Option CellFormat
  validation : Option CellValidation
deriving DecidableEq, Repr

/-- `RangeGroup` from response-parser.ts. -/
structure RangeGroup where
  startRow : Nat
  startCol : Nat
  numRows : Nat
  numCols : Nat
  values : List (List JSValue)
  formatting : Option CellFormat
deriving DecidableEq, Repr

/-- `parseValue` from response-parser.ts: `''` stays `''`, a string whose
`parseFloat` is finite becomes that number, anything else stays a
string. -/
def parseValue (s : String) : JSValue :=
  if s = "" then JSValue.str ""
  else
    match jsParseFloat s with
    | some q => if jsIsFinite q then JSValue.num q else JSValue.str s
    | none => JSValue.str s

/-- `determineDataType` from response-parser.ts, on the string cell values
the pipeline feeds it: `''` is `empty`, a leading `=` is `formula`, a
finite `parseFloat` is `number`, otherwise `string`. -/
def determineDataType (s : String) : CellDataType :=
  if s = "" then CellDataType.empty
  else if jsStartsWithEq s then CellDataType.formula
  else
    match jsParseFloat s with
    | some q => if jsIsFinite q then CellDataType.number else CellDataType.string
    | none => CellDataType.string

/-- Case-insensitive substring test (`value.toLowerCase().includes(sub)`),
via character lists. -/
def containsInsensitive (s : String) (sub : String) : Bool :=
  ((s.data.map Char.toLower).tails).any (fun t => sub.data.isPrefixOf t)

/-- `validateCellValue` from response-parser.ts. -/
def validateCellValue (s : String) : CellValidation :=
  let bad := containsInsensitive s "error" || containsInsensitive s "invalid"
  { isValid := !bad,
    errorMessage := if bad then some "Cell contains error indicator" else none,
    warningMessage :=
      if decide (15 < s.length) && (jsParseFloat s).isSome then
        some "Very large number detected, may lose precision"
      else none }

/-- `getDefaultFormatting` from response-parser.ts. -/
def getDefaultFormatting (dataType : CellDataType) : CellFormat :=
  match dataType with
  | CellDataType.number =>
    { emptyFormat with numberFormat := some "#,##0.00", textAlign := some TextAlign.right }
  | CellDataType.string => { emptyFormat with textAlign := some TextAlign.left }
  | CellDataType.formula =>
    { emptyFormat with fontStyle := some FontStyle.italic, textAlign := some TextAlign.left }
  | CellDataType.empty => { emptyFormat with backgroundColor := some "#f8f8f8" }

/-- The `CellMapping` built by `mapToExcelCells` for the value at assembled
position `(rowIndex, colIndex)`. -/
def mapCell (st : RangeStructure) (rowIndex colIndex : Nat) (value : String) : CellMapping :=
  { sourceRow := rowIndex,
    sourceCol := colIndex,
    targetRow := st.dataStartRow + rowIndex,
    targetCol := st.dataStartCol + colIndex,
    value := parseValue value,
    dataType := determineDataType value,
    formatting := some (getDefaultFormatting (determineDataType value)),
    validation := some (validateCellValue value) }

/-- The inner `row.data.forEach((value, colIndex) => ...)` of
`mapToExcelCells`. -/
def mapRowGo (st : RangeStructure) (rowIndex : Nat) : Nat → List String → List CellMapping
  | _, [] => []
  | colIndex, v :: vs => mapCell st rowIndex colIndex v :: mapRowGo st rowIndex (colIndex + 1) vs

/-- The outer `data.rows.forEach((row, rowIndex) => ...)` of
`mapToExcelCells`. -/
def mapRowsGo (st : RangeStructure) : Nat → List OLAPRow → List CellMapping
  | _, [] => []
  | rowIndex, row :: rest =>
    mapRowGo st rowIndex 0 row.data ++ mapRowsGo st (rowIndex + 1) rest

/-- `mapToExcelCells` from response-parser.ts. -/
def mapToExcelCells (d : OLAPResponseData) (st : RangeStructure) : List CellMapping :=
  mapRowsGo st 0 d.rows

-- ========== response-parser.ts : range grouping ==========

/-- The comparator `(a, b) => a.targetRow !== b.targetRow ? a.targetRow -
b.targetRow : a.targetCol - b.targetCol` as a strict order. -/
def mappingLT (a b : CellMapping) : Bool :=
  decide (a.targetRow < b.targetRow) ||
    (decide (a.targetRow = b.targetRow) && decide (a.targetCol < b.targetCol))

/-- The fresh group started for a mapping in `groupMappingsByRange`. -/
def newGroup (m : CellMapping) : RangeGroup :=
  { startRow := m.targetRow, startCol := m.targetCol, numRows := 1, numCols := 1,
    values := [[m.value]], formatting := m.formatting }

/-- `canAddToGroup` from response-parser.ts: same row and exactly adjacent
column. -/
def canAddToGroup (g : RangeGroup) (m : CellMapping) : Bool :=
  decide (m.targetRow = g.startRow) && decide (m.targetCol = g.startCol + g.numCols)

/-- `addMappingToGroup` from response-parser.ts: push the value onto the
group's single value row and widen it (the impossible other-row branch
only logs a warning and changes nothing). -/
def addMappingToGroup (g : RangeGroup) (m : CellMapping) : RangeGroup :=
  if m.targetRow = g.startRow then
    { g with
      values := match g.values with
        | v0 :: rest => (v0 ++ [m.value]) :: rest
        | [] => [],
      numCols := g.numCols + 1 }
  else g

/-- One step of the grouping loop over the sorted mappings: the state is
the finished groups plus the group under construction. -/
def stepGroup (acc : List RangeGroup × Option RangeGroup) (m : CellMapping) :
    List RangeGroup × Option RangeGroup :=
  match acc.2 with
  | none => (acc.1, some (newGroup m))
  | some g =>
    if canAddToGroup g m then (acc.1, some (addMappingToGroup g m))
    else (acc.1 ++ [g], some (newGroup m))

/-- `groupMappingsByRange` from response-parser.ts. -/
def groupMappingsByRange (mappings : List CellMapping) : List RangeGroup :=
  if mappings.isEmpty then []
  else
    let sorted := sortStableBy mappingLT mappings
    let res := sorted.foldl stepGroup ([], none)
    match res.2 with
    | some g => res.1 ++ [g]
    | none => res.1

-- ========== example inputs used by witnesses and counterexamples ==========

/-- A strategy with `maxCellsPerChunk = 5` (other fields as the source
defaults). -/
def strat5 : ChunkingStrategy :=
  { maxPayloadSize := 1048576, maxCellsPerChunk := 5, chunkByDimension := true,
    preserveStructure := true }

/-- The default chunking strategy of the `DataPreprocessor` constructor. -/
def defaultStrategy : ChunkingStrategy :=
  { maxPayloadSize := 1048576, maxCellsPerChunk := 10000, chunkByDimension := true,
    preserveStructure := true }

/-- A small structure descriptor for the chunking examples. -/
def stExample : RangeStructure :=
  { povMembers := [], columnHeaders := ["C1", "C2", "C3"], rowHeaders := ["a", "b", "c", "d"],
    dataStartRow := 1, dataStartCol := 1, totalRows := 5, totalCols := 4, isEmpty := false }

/-- Dimension data with three column members and one row dimension of four
members: 12 estimated cells. -/
def dims34 : DimensionData :=
  { povDimensions := [],
    columnDimensions := ["C1", "C2", "C3"],
    rowDimensions := ["RowDim_1"],
    memberCombinations :=
      [[{ dimension := "RowDim_1", member := "a" }, { dimension := "RowDim_1", member := "b" },
        { dimension := "RowDim_1", member := "c" }, { dimension := "RowDim_1", member := "d" }]] }

/-- Dimension data with both `columnDimensions` and `memberCombinations`
empty. -/
def emptyDims (pov : List (String × List String)) (rowDims : List String) : DimensionData :=
  { povDimensions := pov, columnDimensions := [], rowDimensions := rowDims,
    memberCombinations := [] }

/-- The sliced dimension data `createDimensionBasedChunks` hands to
`createSingleChunk` for chunk `i` (slice width `mpc`). -/
def sliceDimsAt (dims : DimensionData) (mpc i : Nat) : DimensionData :=
  { dims with
    memberCombinations :=
      dims.memberCombinations.map
        (fun combo =>
          (combo.drop (i * mpc)).take
            (min (i * mpc + mpc) ((dims.memberCombinations.headD []).length) - i * mpc)) }

/-- Default-style assembly options with the `smart` merge strategy. -/
def optsSmart : AssemblyOptions :=
  { validateIntegrity := true, handleMissingChunks := MissingMode.error,
    sortByChunkIndex := true, mergeStrategy := MergeMode.smart }

/-- Example response rows for the merge claims. -/
def rowX : OLAPRow := { data := ["1"], members := some ["X"] }

/-- See `rowX`. -/
def rowY : OLAPRow := { data := ["2"], members := some ["Y"] }

/-- A second row with the same `members` list as `rowY` (a cross-chunk
duplicate). -/
def rowY2 : OLAPRow := { data := ["9"], members := some ["Y"] }

/-- See `rowX`. -/
def rowZ : OLAPRow := { data := ["3"], members := some ["Z"] }

/-- A successful chunk response carrying `rowX` and `rowY`. -/
def respA : ChunkResponse :=
  { chunkIndex := 0, chunkId := "chunk_0", status := RespStatus.success,
    data := some { rows := [rowX, rowY], columns := none, metadata := none },
    error := none, actualCells := some 2, processingTime := none }

/-- A successful chunk response carrying `rowY2` and `rowZ` (its `rowY2`
duplicates `rowY` of `respA`). -/
def respB : ChunkResponse :=
  { chunkIndex := 1, chunkId := "chunk_1", status := RespStatus.success,
    data := some { rows := [rowY2, rowZ], columns := none, metadata := none },
    error := none, actualCells := some 2, processingTime := none }

/-- An assembled 1-row response whose first cell is the string "150". -/
def respData150 : OLAPResponseData :=
  { rows := [{ data := ["150", "", "abc"], members := none }], columns := none,
    metadata := none }

/-- A bare cell mapping at target position `(r, c)` for the grouping
example. -/
def mkMapping (r c : Nat) : CellMapping :=
  { sourceRow := 0, sourceCol := 0, targetRow := r, targetCol := c,
    value := JSValue.str "v", dataType := CellDataType.string,
    formatting := none, validation := none }

/-- Same-row mappings at columns 0, 1, 2 and 5 (the spec's grouping
scenario). -/
def exampleMappings : List CellMapping :=
  [mkMapping 0 0, mkMapping 0 1, mkMapping 0 2, mkMapping 0 5]

-- ========== arithmetic helper lemmas ==========

lemma lt_jsCeilDiv_iff (len mpc i : Nat) (h : 0 < mpc) :
    i < jsCeilDiv len mpc ↔ i * mpc < len := by
  unfold jsCeilDiv
  rw [Nat.lt_iff_add_one_le, Nat.le_div_iff_mul_le h, add_one_mul]
  generalize i * mpc = a
  omega

lemma le_mul_jsCeilDiv (len cc : Nat) (h : 0 < cc) : len ≤ cc * jsCeilDiv len cc := by
  unfold jsCeilDiv
  have h1 := Nat.div_add_mod (len + cc - 1) cc
  have h2 := Nat.mod_lt (len + cc - 1) h
  generalize hq : (len + cc - 1) / cc = q at *
  generalize hr : (len + cc - 1) % cc = r at *
  generalize hm : cc * q = m at *
  omega

lemma jsCeilDiv_pos (len cc : Nat) (hc : 0 < cc) (hl : 0 < len) : 0 < jsCeilDiv len cc := by
  unfold jsCeilDiv
  exact (Nat.le_div_iff_mul_le hc).mpr (by omega)

lemma jsCeilDiv_zero_left (cc : Nat) : jsCeilDiv 0 cc = 0 := by
  unfold jsCeilDiv
  rcases Nat.eq_zero_or_pos cc with h | h
  · simp [h]
  · exact Nat.div_eq_of_lt (by omega)

lemma estimateCells_pos (dims : DimensionData) : 0 < estimateCellsFromDimensions dims := by
  simp only [estimateCellsFromDimensions]
  apply Nat.mul_pos <;> (split <;> omega)

-- ========== list slicing helper lemmas ==========

lemma take_min_length (l : List α) (n : Nat) : l.take (min n l.length) = l.take n := by
  rw [← List.take_take, List.take_length]

lemma drop_take_min (L : List α) (s mpc : Nat) :
    (L.drop s).take (min (s + mpc) L.length - s) = (L.drop s).take mpc := by
  have h1 : min (s + mpc) L.length - s = min mpc (L.length - s) := by omega
  rw [h1, ← List.length_drop, take_min_length]

lemma joinSlices (mpc : Nat) :
    ∀ (k : Nat) (L : List α),
      ((List.range k).map (fun i => (L.drop (i * mpc)).take mpc)).flatten = L.take (k * mpc) := by
  intro k
  induction k with
  | zero => intro L; simp
  | succ n ih =>
    intro L
    rw [List.range_succ, List.map_append, List.flatten_append, ih L]
    simp only [List.map_cons, List.map_nil, List.flatten_cons, List.flatten_nil, List.append_nil]
    rw [add_one_mul, List.take_add]

lemma filterMap_range_below (f : Nat → α) :
    ∀ (cc k : Nat), k ≤ cc →
      (List.range cc).filterMap (fun i => if i < k then some (f i) else none)
        = (List.range k).map f := by
  intro cc
  induction cc with
  | zero =>
    intro k hk
    have : k = 0 := Nat.le_zero.mp hk
    subst this
    rfl
  | succ n ih =>
    intro k hk
    rw [List.range_succ, List.filterMap_append]
    by_cases h : k = n + 1
    · subst h
      have hfront :
          (List.range n).filterMap (fun i => if i < n + 1 then some (f i) else none)
            = (List.range n).map f := by
        apply List.filterMap_eq_map_iff_forall_eq_some.mpr
        intro i hi
        have : i < n := List.mem_range.mp hi
        simp [Nat.lt_succ_of_lt this]
      rw [hfront, List.range_succ, List.map_append]
      simp
    · have hk2 : k ≤ n := by omega
      rw [ih k hk2]
      have hn : ¬ (n < k) := by omega
      simp [hn]

-- ========== chunk-planner helper lemmas ==========

lemma origFirstDim_length (dims : DimensionData) :
    (origFirstDim dims).length = (dims.memberCombinations.headD []).length := by
  simp [origFirstDim]

lemma createDimensionBasedChunks_normal (dims : DimensionData) (st : RangeStructure) (cc : Nat)
    (hne : dims.memberCombinations ≠ []) (hcc : 0 < cc) :
    createDimensionBasedChunks dims st cc =
      (List.range (jsCeilDiv ((dims.memberCombinations.headD []).length)
          (jsCeilDiv ((dims.memberCombinations.headD []).length) cc))).map
        (fun i => createSingleChunk
          (sliceDimsAt dims (jsCeilDiv ((dims.memberCombinations.headD []).length) cc) i)
          st i cc) := by
  unfold createDimensionBasedChunks
  rw [if_pos (List.length_pos.mpr hne)]
  dsimp only
  show List.filterMap (fun i =>
      if i * jsCeilDiv ((dims.memberCombinations.headD []).length) cc <
          (dims.memberCombinations.headD []).length then
        some (createSingleChunk
          (sliceDimsAt dims (jsCeilDiv ((dims.memberCombinations.headD []).length) cc) i)
          st i cc)
      else none) (List.range cc) = _
  rcases Nat.eq_zero_or_pos ((dims.memberCombinations.headD []).length) with h0 | h0
  · rw [h0, jsCeilDiv_zero_left, jsCeilDiv_zero_left]
    rw [List.filterMap_eq_nil_iff.mpr]
    · rfl
    · intro i _
      simp
  · have hmpc : 0 < jsCeilDiv ((dims.memberCombinations.headD []).length) cc :=
      jsCeilDiv_pos _ _ hcc h0
    have hk : jsCeilDiv ((dims.memberCombinations.headD []).length)
        (jsCeilDiv ((dims.memberCombinations.headD []).length) cc) ≤ cc := by
      by_contra hlt
      have h1 := (lt_jsCeilDiv_iff ((dims.memberCombinations.headD []).length)
        (jsCeilDiv ((dims.memberCombinations.headD []).length) cc) cc hmpc).mp (by omega)
      have h2 := le_mul_jsCeilDiv ((dims.memberCombinations.headD []).length) cc hcc
      exact Nat.lt_irrefl _ (Nat.lt_of_le_of_lt h2 h1)
    rw [@List.filterMap_congr _ _ _ (fun i =>
      if i < jsCeilDiv ((dims.memberCombinations.headD []).length)
          (jsCeilDiv ((dims.memberCombinations.headD []).length) cc) then
        some (createSingleChunk
          (sliceDimsAt dims (jsCeilDiv ((dims.memberCombinations.headD []).length) cc) i)
          st i cc)
      else none) _
      (fun i _ => if_congr (Iff.symm (lt_jsCeilDiv_iff _ _ i hmpc)) rfl rfl)]
    exact filterMap_range_below _ cc _ hk

lemma createChunks_normal (strat : ChunkingStrategy) (dims : DimensionData) (st : RangeStructure)
    (hm : 0 < strat.maxCellsPerChunk)
    (ht : strat.maxCellsPerChunk < estimateCellsFromDimensions dims)
    (hne : dims.memberCombinations ≠ []) :
    createChunks strat dims st =
      (List.range (jsCeilDiv (origFirstDim dims).length (mpcOf strat dims))).map
        (fun i => createSingleChunk (sliceDimsAt dims (mpcOf strat dims) i) st i
          (chunkCountOf strat dims)) := by
  have hcc : 0 < chunkCountOf strat dims :=
    jsCeilDiv_pos _ _ hm (estimateCells_pos dims)
  have hmain := createDimensionBasedChunks_normal dims st (chunkCountOf strat dims) hne hcc
  have heq : mpcOf strat dims
      = jsCeilDiv ((dims.memberCombinations.headD []).length) (chunkCountOf strat dims) := by
    rw [mpcOf, origFirstDim_length]
  unfold createChunks
  rw [if_neg (by omega)]
  dsimp only
  rw [origFirstDim_length, heq]
  cases hb : strat.chunkByDimension
  · rw [if_neg (by simp [hb])]
    unfold createSizeBasedChunks
    exact hmain
  · rw [if_pos (by simp [hb])]
    exact hmain

lemma chunkFirstSlice_single (d : DimensionData) (st : RangeStructure) (i t : Nat)
    (h : d.memberCombinations ≠ []) :
    chunkFirstSlice (createSingleChunk d st i t)
      = (d.memberCombinations.headD []).map (fun dm => dm.member) := by
  rcases hd : d.memberCombinations with _ | ⟨c, rest⟩
  · exact absurd hd h
  · simp [chunkFirstSlice, createSingleChunk, hd]

lemma povMembersOfGrid_single (d : DimensionData) (st : RangeStructure) (i t : Nat) :
    povMembersOfGrid (createSingleChunk d st i t).gridDefinition
      = d.povDimensions.map Prod.snd := by
  rcases hd : d.povDimensions with _ | ⟨p, rest⟩ <;>
    simp [povMembersOfGrid, createSingleChunk, povOfDimensions, hd]

lemma columns_single (d : DimensionData) (st : RangeStructure) (i t : Nat) :
    (createSingleChunk d st i t).gridDefinition.columns
      = [{ dimensions := none, members := [d.columnDimensions] }] := rfl

lemma sliceDims_ne (dims : DimensionData) (mpc i : Nat) (h : dims.memberCombinations ≠ []) :
    (sliceDimsAt dims mpc i).memberCombinations ≠ [] := by
  simp [sliceDimsAt, h]

lemma sliceDims_headD (dims : DimensionData) (mpc i : Nat) (h : dims.memberCombinations ≠ []) :
    (sliceDimsAt dims mpc i).memberCombinations.headD []
      = ((dims.memberCombinations.headD []).drop (i * mpc)).take
          (min (i * mpc + mpc) ((dims.memberCombinations.headD []).length) - i * mpc) := by
  rcases hd : dims.memberCombinations with _ | ⟨c, rest⟩
  · exact absurd hd h
  · simp [sliceDimsAt, hd]

lemma chunkFirstSlice_slice (dims : DimensionData) (st : RangeStructure) (mpc i idx t : Nat)
    (h : dims.memberCombinations ≠ []) :
    chunkFirstSlice (createSingleChunk (sliceDimsAt dims mpc i) st idx t)
      = ((origFirstDim dims).drop (i * mpc)).take mpc := by
  rw [chunkFirstSlice_single _ _ _ _ (sliceDims_ne dims mpc i h), sliceDims_headD dims mpc i h,
    List.map_take, List.map_drop]
  rw [show ((dims.memberCombinations.headD []).map (fun dm => dm.member)) = origFirstDim dims
    from rfl]
  rw [← origFirstDim_length]
  exact drop_take_min _ _ _

/-- C1: when the estimated cell count exceeds `maxCellsPerChunk`, the chunk
planner partitions the first row dimension's member list into contiguous,
non-overlapping, order-preserving slices of size
`ceil(firstDimCount / chunkCount)` (each emitted chunk carries one
non-empty slice of exactly that drop/take shape, and the concatenation of
the slices in chunk order restores the original list), while the POV
member lists and the column member list are replicated unchanged into
every chunk. -/
theorem createChunks_partitions_first_row_dimension
    (strat : ChunkingStrategy) (dims : DimensionData) (st : RangeStructure)
    (hm : 0 < strat.maxCellsPerChunk)
    (ht : strat.maxCellsPerChunk < estimateCellsFromDimensions dims)
    (hne : dims.memberCombinations ≠ []) :
    ((createChunks strat dims st).map chunkFirstSlice).flatten = origFirstDim dims
    ∧ ∀ c ∈ createChunks strat dims st,
        (∃ i, i * mpcOf strat dims < (origFirstDim dims).length ∧
            chunkFirstSlice c
              = ((origFirstDim dims).drop (i * mpcOf strat dims)).take (mpcOf strat dims))
        ∧ chunkFirstSlice c ≠ []
        ∧ povMembersOfGrid c.gridDefinition = dims.povDimensions.map Prod.snd
        ∧ c.gridDefinition.columns = [{ dimensions := none, members := [dims.columnDimensions] }] := by
  have hcc : 0 < chunkCountOf strat dims := jsCeilDiv_pos _ _ hm (estimateCells_pos dims)
  have hnorm := createChunks_normal strat dims st hm ht hne
  constructor
  · rw [hnorm, List.map_map]
    have hcomp : (chunkFirstSlice ∘ fun i =>
        createSingleChunk (sliceDimsAt dims (mpcOf strat dims) i) st i (chunkCountOf strat dims))
        = fun i => ((origFirstDim dims).drop (i * mpcOf strat dims)).take (mpcOf strat dims) := by
      funext i
      exact chunkFirstSlice_slice dims st (mpcOf strat dims) i i _ hne
    rw [hcomp, joinSlices (mpcOf strat dims) _ (origFirstDim dims)]
    rcases Nat.eq_zero_or_pos (origFirstDim dims).length with h0 | h0
    · have hnil : origFirstDim dims = [] := List.length_eq_zero.mp h0
      rw [hnil]
      simp
    · have hmpc0 : 0 < mpcOf strat dims := jsCeilDiv_pos _ _ hcc h0
      have hbound := le_mul_jsCeilDiv (origFirstDim dims).length (mpcOf strat dims) hmpc0
      apply List.take_of_length_le
      calc (origFirstDim dims).length
          ≤ mpcOf strat dims * jsCeilDiv (origFirstDim dims).length (mpcOf strat dims) := hbound
        _ = jsCeilDiv (origFirstDim dims).length (mpcOf strat dims) * mpcOf strat dims :=
            Nat.mul_comm _ _
  · intro c hc
    rw [hnorm] at hc
    rcases List.mem_map.mp hc with ⟨i, hi, rfl⟩
    have hik := List.mem_range.mp hi
    have h0 : 0 < (origFirstDim dims).length := by
      by_contra hz
      have hzz : (origFirstDim dims).length = 0 := by omega
      rw [hzz, jsCeilDiv_zero_left] at hik
      omega
    have hmpc0 : 0 < mpcOf strat dims := jsCeilDiv_pos _ _ hcc h0
    have himpc : i * mpcOf strat dims < (origFirstDim dims).length :=
      (lt_jsCeilDiv_iff _ _ i hmpc0).mp hik
    refine ⟨⟨i, himpc, chunkFirstSlice_slice dims st (mpcOf strat dims) i i _ hne⟩, ?_,
      povMembersOfGrid_single _ _ _ _, columns_single _ _ _ _⟩
    rw [chunkFirstSlice_slice dims st (mpcOf strat dims) i i _ hne]
    intro hnil
    have hlen := congrArg List.length hnil
    rw [List.length_take, List.length_drop, List.length_nil] at hlen
    have hgen : i * mpcOf strat dims < (origFirstDim dims).length := himpc
    generalize hA : i * mpcOf strat dims = a at hlen hgen
    omega

/-- Witness for C1 at a concrete input: 12 estimated cells with
`maxCellsPerChunk = 5` give 3 requested chunks over a 4-member first row
dimension; the emitted slices concatenate back to the original member
list. -/
theorem createChunks_partitions_first_row_dimension_witness :
    (0 < strat5.maxCellsPerChunk
      ∧ strat5.maxCellsPerChunk < estimateCellsFromDimensions dims34
      ∧ dims34.memberCombinations ≠ [])
    ∧ ((createChunks strat5 dims34 stExample).map chunkFirstSlice).flatten
        = origFirstDim dims34 :=
  ⟨⟨by decide, by decide, by decide⟩,
    (createChunks_partitions_first_row_dimension strat5 dims34 stExample
      (by decide) (by decide) (by decide)).1⟩

/-- C2 (amended): `chunkIndex` values are assigned in creation order
starting at 0 and no emitted chunk carries an empty first-dimension slice;
however, in the multi-chunk case every chunk's `totalChunks` field is the
requested chunk count `ceil(totalCells / maxCellsPerChunk)`, which the
planner does not recompute and which can exceed the number of chunks
actually produced. -/
theorem createChunks_chunkIndex_order
    (strat : ChunkingStrategy) (dims : DimensionData) (st : RangeStructure)
    (hm : 0 < strat.maxCellsPerChunk) :
    ((createChunks strat dims st).map DataChunk.chunkIndex
        = List.range (createChunks strat dims st).length)
    ∧ (strat.maxCellsPerChunk < estimateCellsFromDimensions dims →
        dims.memberCombinations ≠ [] →
        ∀ c ∈ createChunks strat dims st,
          chunkFirstSlice c ≠ [] ∧ c.totalChunks = chunkCountOf strat dims) := by
  constructor
  · by_cases ht : estimateCellsFromDimensions dims ≤ strat.maxCellsPerChunk
    · rw [show createChunks strat dims st = [createSingleChunk dims st 0 1] by
        unfold createChunks
        rw [if_pos ht]]
      rfl
    · by_cases hne : dims.memberCombinations = []
      · have hsingle : createChunks strat dims st = [createSingleChunk dims st 0 1] := by
          unfold createChunks
          rw [if_neg ht]
          dsimp only
          have hlen : ¬ (0 < dims.memberCombinations.length) := by
            rw [hne]
            simp
          cases hb : strat.chunkByDimension
          · rw [if_neg (by simp [hb])]
            unfold createSizeBasedChunks createDimensionBasedChunks
            rw [if_neg hlen]
          · rw [if_pos (by simp [hb])]
            unfold createDimensionBasedChunks
            rw [if_neg hlen]
        rw [hsingle]
        rfl
      · rw [createChunks_normal strat dims st hm (by omega) hne, List.map_map,
          List.length_map, List.length_range]
        have : (DataChunk.chunkIndex ∘ fun i =>
            createSingleChunk (sliceDimsAt dims (mpcOf strat dims) i) st i
              (chunkCountOf strat dims)) = fun i => i := by
          funext i
          rfl
        rw [this]
        simp
  · intro ht hne c hc
    rw [createChunks_normal strat dims st hm ht hne] at hc
    rcases List.mem_map.mp hc with ⟨i, hi, rfl⟩
    have hik := List.mem_range.mp hi
    have hcc : 0 < chunkCountOf strat dims := jsCeilDiv_pos _ _ hm (estimateCells_pos dims)
    have h0 : 0 < (origFirstDim dims).length := by
      by_contra hz
      have hzz : (origFirstDim dims).length = 0 := by omega
      rw [hzz, jsCeilDiv_zero_left] at hik
      omega
    have hmpc0 : 0 < mpcOf strat dims := jsCeilDiv_pos _ _ hcc h0
    have himpc : i * mpcOf strat dims < (origFirstDim dims).length :=
      (lt_jsCeilDiv_iff _ _ i hmpc0).mp hik
    constructor
    · rw [chunkFirstSlice_slice dims st (mpcOf strat dims) i i _ hne]
      intro hnil
      have hlen := congrArg List.length hnil
      rw [List.length_take, List.length_drop, List.length_nil] at hlen
      generalize hA : i * mpcOf strat dims = a at hlen himpc
      omega
    · rfl

/-- Witness for C2's theorem at a concrete input (the default strategy on
the 12-cell example yields a single chunk with index 0). -/
theorem createChunks_chunkIndex_order_witness :
    0 < defaultStrategy.maxCellsPerChunk
    ∧ (createChunks defaultStrategy dims34 stExample).map DataChunk.chunkIndex
        = List.range (createChunks defaultStrategy dims34 stExample).length :=
  ⟨by decide,
    (createChunks_chunkIndex_order defaultStrategy dims34 stExample (by decide)).1⟩

/-- Counterexample to C2 as stated: 12 estimated cells with
`maxCellsPerChunk = 5` request `ceil(12/5) = 3` chunks, the 4-member first
dimension is cut into slices of `ceil(4/3) = 2`, so only 2 chunks are
emitted - yet both carry `totalChunks = 3`, not the number of chunks
actually produced. -/
theorem createChunks_totalChunks_counterexample :
    (createChunks strat5 dims34 stExample).length = 2
    ∧ (createChunks strat5 dims34 stExample).map DataChunk.totalChunks = [3, 3] := by
  constructor <;> rfl

lemma rows_single (d : DimensionData) (st : RangeStructure) (i t : Nat)
    (h : d.memberCombinations ≠ []) :
    (createSingleChunk d st i t).gridDefinition.rows
      = [{ dimensions := none,
           members := d.memberCombinations.map (fun combo => combo.map (fun dm => dm.member)) }] := by
  simp [createSingleChunk, List.length_pos.mpr h]

/-- C5: when the estimated total cell count is at most `maxCellsPerChunk`,
the planner returns exactly one chunk whose grid definition reproduces all
original POV member lists, the full column member list and all
row-dimension member lists. -/
theorem createChunks_single_chunk_reproduces
    (strat : ChunkingStrategy) (dims : DimensionData) (st : RangeStructure)
    (ht : estimateCellsFromDimensions dims ≤ strat.maxCellsPerChunk) :
    (createChunks strat dims st).length = 1
    ∧ ∀ c ∈ createChunks strat dims st,
        povMembersOfGrid c.gridDefinition = dims.povDimensions.map Prod.snd
        ∧ c.gridDefinition.columns = [{ dimensions := none, members := [dims.columnDimensions] }]
        ∧ (dims.memberCombinations ≠ [] →
            c.gridDefinition.rows
              = [{ dimensions := none,
                   members := dims.memberCombinations.map
                     (fun combo => combo.map (fun dm => dm.member)) }]) := by
  have hsingle : createChunks strat dims st = [createSingleChunk dims st 0 1] := by
    unfold createChunks
    rw [if_pos ht]
  rw [hsingle]
  refine ⟨rfl, ?_⟩
  intro c hc
  rw [List.mem_singleton] at hc
  subst hc
  exact ⟨povMembersOfGrid_single _ _ _ _, columns_single _ _ _ _,
    fun h => rows_single _ _ _ _ h⟩

/-- Witness for C5 at a concrete input: 12 estimated cells under the
10000-cell default strategy give exactly one chunk. -/
theorem createChunks_single_chunk_reproduces_witness :
    estimateCellsFromDimensions dims34 ≤ defaultStrategy.maxCellsPerChunk
    ∧ (createChunks defaultStrategy dims34 stExample).length = 1 :=
  ⟨by decide,
    (createChunks_single_chunk_reproduces defaultStrategy dims34 stExample (by decide)).1⟩

/-- Counterexample to C3 as stated: with both `columnDimensions` and
`memberCombinations` empty, `createChunks` does not fail at all (there is
no `EmptyQueryError` anywhere in the planner) - it produces exactly one
chunk. -/
theorem createChunks_emptyQuery_counterexample :
    (createChunks defaultStrategy (emptyDims [] []) emptyRangeStructure).length = 1 := by
  rfl

/-- C3 (amended): on dimension data with empty `columnDimensions` and
`memberCombinations`, chunk planning succeeds (for any positive
`maxCellsPerChunk`, since the estimate degenerates to 1 cell) and emits a
single chunk whose column and row member lists are `[[]]`. -/
theorem createChunks_emptyQuery_amended
    (pov : List (String × List String)) (rowDims : List String)
    (st : RangeStructure) (strat : ChunkingStrategy)
    (hm : 1 ≤ strat.maxCellsPerChunk) :
    (createChunks strat (emptyDims pov rowDims) st).length = 1
    ∧ ∀ c ∈ createChunks strat (emptyDims pov rowDims) st,
        c.gridDefinition.columns = [{ dimensions := none, members := [[]] }]
        ∧ c.gridDefinition.rows = [{ dimensions := none, members := [[]] }] := by
  have hest : estimateCellsFromDimensions (emptyDims pov rowDims) = 1 := rfl
  have hsingle : createChunks strat (emptyDims pov rowDims) st
      = [createSingleChunk (emptyDims pov rowDims) st 0 1] := by
    unfold createChunks
    rw [hest, if_pos hm]
  rw [hsingle]
  refine ⟨rfl, ?_⟩
  intro c hc
  rw [List.mem_singleton] at hc
  subst hc
  exact ⟨rfl, rfl⟩

/-- Witness for the amended C3 at a concrete input. -/
theorem createChunks_emptyQuery_amended_witness :
    1 ≤ defaultStrategy.maxCellsPerChunk
    ∧ (createChunks defaultStrategy (emptyDims [] []) emptyRangeStructure).length = 1 :=
  ⟨by decide,
    (createChunks_emptyQuery_amended [] [] emptyRangeStructure defaultStrategy (by decide)).1⟩

/-- Counterexample to C4 as stated: on the empty grid `identifyStructure`
does not fail - it returns the `isEmpty` sentinel structure. -/
theorem identifyStructure_empty_counterexample :
    identifyStructure ([] : List (List String)) = Except.ok emptyRangeStructure := by
  rfl

/-- C4 (amended): `identifyStructure` returns the `isEmpty` sentinel (not
an error) for the empty grid; it throws `Could not find header start` when
row 0 has no non-empty cell, and `Could not find data row start` when
every row's first cell exists and is empty (a zero-length row would pass
the JavaScript `row[0] !== ""` test, so the hypothesis requires the first
cell to be present). -/
theorem identifyStructure_failure_modes :
    identifyStructure ([] : List (List String)) = Except.ok emptyRangeStructure
    ∧ (∀ g : List (List String), g ≠ [] → (∀ c ∈ g.headD [], c = "") →
        identifyStructure g = Except.error "Could not find header start")
    ∧ (∀ g : List (List String), g ≠ [] → (∃ c ∈ g.headD [], c ≠ "") →
        (∀ row ∈ g, row.head? = some "") →
        identifyStructure g = Except.error "Could not find data row start") := by
  refine ⟨rfl, ?_, ?_⟩
  · intro g hg hrow0
    have hfind : (g.headD []).findIdx? (fun cell => decide (cell ≠ "")) = none := by
      apply List.findIdx?_eq_none_iff.mpr
      intro x hx
      simp [hrow0 x hx]
    unfold identifyStructure
    rw [if_neg (by simp [hg]), hfind]
  · intro g hg hex hcol
    have hdata : g.findIdx? jsColZeroNonEmpty = none := by
      apply List.findIdx?_eq_none_iff.mpr
      intro row hrow
      have hh := hcol row hrow
      cases row with
      | nil => simp at hh
      | cons c tl =>
        have hc : c = "" := by simpa using hh
        simp [jsColZeroNonEmpty, hc]
    unfold identifyStructure
    rw [if_neg (by simp [hg])]
    cases hfind : (g.headD []).findIdx? (fun cell => decide (cell ≠ "")) with
    | none =>
      rcases hex with ⟨c, hc, hcne⟩
      have := List.findIdx?_eq_none_iff.mp hfind c hc
      simp [hcne] at this
    | some k =>
      rw [hdata]

/-- Witness for the amended C4 at concrete grids: the empty grid returns
the sentinel, a grid whose row 0 is all-empty throws the header error, and
a grid whose rows all start with an empty cell throws the data-row
error. -/
theorem identifyStructure_failure_modes_witness :
    identifyStructure ([] : List (List String)) = Except.ok emptyRangeStructure
    ∧ identifyStructure [["", ""]] = Except.error "Could not find header start"
    ∧ identifyStructure [["", "a"], ["", "b"]]
        = Except.error "Could not find data row start" :=
  ⟨identifyStructure_failure_modes.1,
    identifyStructure_failure_modes.2.1 [["", ""]] (by decide) (by decide),
    identifyStructure_failure_modes.2.2 [["", "a"], ["", "b"]] (by decide)
      ⟨"a", by decide, by decide⟩ (by decide)⟩

/-- C6: when row 0 has a non-empty first cell, `dataStartRow` resolves to
0 and `identifyStructure` succeeds with empty `povMembers` and empty
`columnHeaders` (no indexing below row 0). -/
theorem identifyStructure_dataStartRow_zero
    (c : String) (cs : List String) (rest : List (List String)) (hc : c ≠ "") :
    (identifyStructure ((c :: cs) :: rest)).toOption.map RangeStructure.povMembers = some []
    ∧ (identifyStructure ((c :: cs) :: rest)).toOption.map RangeStructure.columnHeaders = some []
    ∧ (identifyStructure ((c :: cs) :: rest)).toOption.map RangeStructure.dataStartRow = some 0 := by
  have hp : (decide (c ≠ "")) = true := decide_eq_true hc
  have hmain : identifyStructure ((c :: cs) :: rest)
      = Except.ok
          { povMembers := [], columnHeaders := [],
            rowHeaders :=
              ((((c :: cs) :: rest).drop 0).map (fun row => row.headD "")).filter
                (fun h => decide (h ≠ "")),
            dataStartRow := 0, dataStartCol := 0,
            totalRows := ((c :: cs) :: rest).length, totalCols := (c :: cs).length,
            isEmpty := false } := by
    unfold identifyStructure
    rw [if_neg (by simp)]
    have h1 : ((c :: cs) :: rest).headD [] = c :: cs := rfl
    rw [h1]
    rw [List.findIdx?_cons, if_pos hp]
    have h2 : ((c :: cs) :: rest).findIdx? jsColZeroNonEmpty = some 0 := by
      rw [List.findIdx?_cons, if_pos (by simp [jsColZeroNonEmpty, hp])]
    rw [h2]
    rfl
  rw [hmain]
  exact ⟨rfl, rfl, rfl⟩

/-- Witness for C6 at a concrete grid. -/
theorem identifyStructure_dataStartRow_zero_witness :
    (identifyStructure [["a", "b"]]).toOption.map RangeStructure.povMembers = some []
    ∧ (identifyStructure [["a", "b"]]).toOption.map RangeStructure.columnHeaders = some [] :=
  ⟨(identifyStructure_dataStartRow_zero "a" ["b"] [] (by decide)).1,
    (identifyStructure_dataStartRow_zero "a" ["b"] [] (by decide)).2.1⟩

-- ========== merge / dedup helper lemmas ==========

lemma matchesMembers_iff (ms : List String) (o : OLAPRow) :
    matchesMembers ms o = true ↔ o.members = some ms := by
  cases h : o.members with
  | none => simp [matchesMembers, h]
  | some ms2 => simp [matchesMembers, h]

lemma findIdx?_append_cons (p : α → Bool) (r : α) (hr : p r = true) :
    ∀ (pre : List α) (L : List α) (start : Nat),
      (List.findIdx? p (pre ++ r :: L) start = some (start + pre.length)
        ↔ ∀ o ∈ pre, p o = false) := by
  intro pre
  induction pre with
  | nil =>
    intro L start
    simp [List.findIdx?_cons, hr]
  | cons a pre2 ih =>
    intro L start
    rw [List.cons_append, List.findIdx?_cons]
    by_cases ha : p a = true
    · rw [if_pos ha]
      constructor
      · intro h
        rw [Option.some.injEq] at h
        simp only [List.length_cons] at h
        omega
      · intro h
        have := h a (by simp)
        rw [ha] at this
        exact absurd this (by simp)
    · rw [if_neg ha]
      have hrec := ih L (start + 1)
      have harith : start + (a :: pre2).length = (start + 1) + pre2.length := by
        rw [List.length_cons]
        omega
      rw [harith]
      constructor
      · intro h o ho
        rcases List.mem_cons.mp ho with rfl | ho2
        · exact Bool.eq_false_iff.mpr ha
        · exact (hrec.mp h) o ho2
      · intro h
        exact hrec.mpr (fun o ho => h o (List.mem_cons_of_mem a ho))

lemma dedupRowsAux_congr :
    ∀ (L : List OLAPRow) (s1 s2 : List (List String)),
      (∀ x, x ∈ s1 ↔ x ∈ s2) → dedupRowsAux s1 L = dedupRowsAux s2 L := by
  intro L
  induction L with
  | nil => intro s1 s2 _; rfl
  | cons r rest ih =>
    intro s1 s2 h
    cases hm : r.members with
    | none => simp only [dedupRowsAux, hm, ih s1 s2 h]
    | some ms =>
      simp only [dedupRowsAux, hm]
      have hcons : ∀ x, x ∈ ms :: s1 ↔ x ∈ ms :: s2 := by
        intro x
        simp [h x]
      by_cases hin : ms ∈ s1
      · rw [if_pos hin, if_pos ((h ms).mp hin), ih _ _ hcons]
      · rw [if_neg hin, if_neg (fun hc => hin ((h ms).mpr hc)), ih _ _ hcons]

lemma smartFilterGo_eq_dedup :
    ∀ (rest pre : List OLAPRow),
      smartFilterGo (pre ++ rest) pre.length rest
        = dedupRowsAux (pre.filterMap OLAPRow.members) rest := by
  intro rest
  induction rest with
  | nil => intro pre; rfl
  | cons r rest2 ih =>
    intro pre
    have happ : pre ++ r :: rest2 = (pre ++ [r]) ++ rest2 := by simp
    have hlen : pre.length + 1 = (pre ++ [r]).length := by simp
    have hihr : smartFilterGo (pre ++ r :: rest2) (pre.length + 1) rest2
        = dedupRowsAux ((pre ++ [r]).filterMap OLAPRow.members) rest2 := by
      rw [show smartFilterGo (pre ++ r :: rest2) (pre.length + 1) rest2
          = smartFilterGo ((pre ++ [r]) ++ rest2) ((pre ++ [r]).length) rest2 by
        rw [← happ, ← hlen]]
      exact ih (pre ++ [r])
    cases hm : r.members with
    | none =>
      have hkeep : keepRow (pre ++ r :: rest2) pre.length r = true := by
        simp [keepRow, hm]
      rw [smartFilterGo, if_pos hkeep, hihr]
      have hfm : (pre ++ [r]).filterMap OLAPRow.members = pre.filterMap OLAPRow.members := by
        rw [List.filterMap_append]
        simp [hm]
      rw [hfm]
      simp only [dedupRowsAux, hm]
    | some ms =>
      have hr : matchesMembers ms r = true := (matchesMembers_iff ms r).mpr hm
      have hiff := findIdx?_append_cons (matchesMembers ms) r hr pre rest2 0
      rw [Nat.zero_add] at hiff
      have hseen : (ms ∈ pre.filterMap OLAPRow.members)
          ↔ ¬ (∀ o ∈ pre, matchesMembers ms o = false) := by
        rw [List.mem_filterMap]
        constructor
        · rintro ⟨o, ho, hmem⟩ hall
          have h1 := hall o ho
          have h2 := (matchesMembers_iff ms o).mpr hmem
          rw [h1] at h2
          exact absurd h2 (by simp)
        · intro hnall
          push_neg at hnall
          rcases hnall with ⟨o, ho, hne⟩
          refine ⟨o, ho, (matchesMembers_iff ms o).mp ?_⟩
          cases hb : matchesMembers ms o
          · exact absurd hb hne
          · rfl
      have hkeep : keepRow (pre ++ r :: rest2) pre.length r
          = decide (List.findIdx? (matchesMembers ms) (pre ++ r :: rest2) = some pre.length) := by
        simp [keepRow, hm]
      have hfm : (pre ++ [r]).filterMap OLAPRow.members
          = pre.filterMap OLAPRow.members ++ [ms] := by
        rw [List.filterMap_append]
        simp [hm]
      have hcongr : dedupRowsAux (pre.filterMap OLAPRow.members ++ [ms]) rest2
          = dedupRowsAux (ms :: pre.filterMap OLAPRow.members) rest2 := by
        apply dedupRowsAux_congr
        intro x
        simp [or_comm]
      by_cases hin : ms ∈ pre.filterMap OLAPRow.members
      · have hnall := hseen.mp hin
        have hfind : List.findIdx? (matchesMembers ms) (pre ++ r :: rest2) ≠ some pre.length :=
          fun hc => hnall (hiff.mp hc)
        have hkfalse : keepRow (pre ++ r :: rest2) pre.length r = false := by
          rw [hkeep]
          simpa using hfind
        rw [smartFilterGo, if_neg (by rw [hkfalse]; simp), hihr, hfm, hcongr]
        simp only [dedupRowsAux, hm, if_pos hin]
      · have hall : ∀ o ∈ pre, matchesMembers ms o = false := by
          by_contra hc
          exact hin (hseen.mpr hc)
        have hktrue : keepRow (pre ++ r :: rest2) pre.length r = true := by
          rw [hkeep]
          simpa using hiff.mpr hall
        rw [smartFilterGo, if_pos hktrue, hihr, hfm, hcongr]
        simp only [dedupRowsAux, hm, if_neg hin]

lemma mergeRowsSmart_eq_dedup (rs : List ChunkResponse) :
    mergeRowsSmart rs = dedupRows (concatRows rs) := by
  simpa using smartFilterGo_eq_dedup (concatRows rs) []

lemma length_insertBy (lt : α → α → Bool) (x : α) :
    ∀ l : List α, (insertBy lt x l).length = l.length + 1 := by
  intro l
  induction l with
  | nil => rfl
  | cons y ys ih =>
    simp only [insertBy]
    split
    · simp
    · simp [ih]

lemma length_sortStableBy (lt : α → α → Bool) (l : List α) :
    (sortStableBy lt l).length = l.length := by
  suffices h : ∀ (l acc : List α),
      (l.foldl (fun a x => insertBy lt x a) acc).length = acc.length + l.length by
    simpa [sortStableBy] using h l []
  intro l
  induction l with
  | nil => intro acc; simp
  | cons x xs ih =>
    intro acc
    rw [List.foldl_cons, ih, length_insertBy, List.length_cons]
    omega

lemma successfulResponses_all (rs : List ChunkResponse)
    (h : ∀ r ∈ rs, r.status = RespStatus.success ∧ r.data.isSome) :
    successfulResponses rs = rs := by
  apply List.filter_eq_self.mpr
  intro r hr
  rcases h r hr with ⟨h1, h2⟩
  simp [h1, h2]

lemma length_sortedSuccesses (opts : AssemblyOptions) (rs : List ChunkResponse) :
    (sortedSuccesses opts rs).length = (successfulResponses rs).length := by
  unfold sortedSuccesses
  dsimp only
  split
  · exact length_sortStableBy _ _
  · rfl

lemma assembleChunks_merge (opts : AssemblyOptions) (rs : List ChunkResponse)
    (h2 : 2 ≤ (sortedSuccesses opts rs).length) :
    rowsOfResult (assembleChunks opts rs)
      = (match opts.mergeStrategy with
        | MergeMode.append => concatRows (sortedSuccesses opts rs)
        | MergeMode.overlay => mergeRowsWithOverlay (sortedSuccesses opts rs)
        | MergeMode.smart => mergeRowsSmart (sortedSuccesses opts rs)) := by
  unfold assembleChunks
  rw [if_neg (by omega), if_neg (by omega)]
  cases opts.mergeStrategy <;> rfl

/-- C7: on a collection of successful chunk responses (two or more),
assembling under `overlay` yields exactly the same rows as assembling
under `smart`, namely the concatenation of the responses' rows from which
a row is removed whenever an earlier row has a deep-equal `members` list
(rows lacking `members` are never removed - `dedupRows` is the spec-side
description of that removal). -/
theorem assemble_overlay_eq_smart (opts : AssemblyOptions) (rs : List ChunkResponse)
    (hall : ∀ r ∈ rs, r.status = RespStatus.success ∧ r.data.isSome)
    (hlen : 2 ≤ rs.length) :
    rowsOfResult (assembleChunks { opts with mergeStrategy := MergeMode.overlay } rs)
      = rowsOfResult (assembleChunks { opts with mergeStrategy := MergeMode.smart } rs)
    ∧ rowsOfResult (assembleChunks { opts with mergeStrategy := MergeMode.smart } rs)
      = dedupRows (concatRows (sortedSuccesses opts rs)) := by
  have hsl : (sortedSuccesses opts rs).length = rs.length := by
    rw [length_sortedSuccesses, successfulResponses_all rs hall]
  have eOv : sortedSuccesses { opts with mergeStrategy := MergeMode.overlay } rs
      = sortedSuccesses opts rs := rfl
  have eSm : sortedSuccesses { opts with mergeStrategy := MergeMode.smart } rs
      = sortedSuccesses opts rs := rfl
  have hA := assembleChunks_merge { opts with mergeStrategy := MergeMode.overlay } rs
    (by rw [eOv]; omega)
  have hB := assembleChunks_merge { opts with mergeStrategy := MergeMode.smart } rs
    (by rw [eSm]; omega)
  rw [hA, hB]
  dsimp only
  rw [eOv, eSm]
  exact ⟨rfl, mergeRowsSmart_eq_dedup _⟩

/-- Witness for C7 at a concrete input: two successful chunks with one
cross-chunk duplicate `members` row assemble to identical `overlay` and
`smart` results. -/
theorem assemble_overlay_eq_smart_witness :
    (∀ r ∈ [respA, respB], r.status = RespStatus.success ∧ r.data.isSome)
    ∧ rowsOfResult (assembleChunks { optsSmart with mergeStrategy := MergeMode.overlay }
        [respA, respB])
      = rowsOfResult (assembleChunks { optsSmart with mergeStrategy := MergeMode.smart }
        [respA, respB]) :=
  ⟨by decide,
    (assemble_overlay_eq_smart optsSmart [respA, respB] (by decide) (by decide)).1⟩

-- ========== cell-mapping helper lemmas ==========

lemma mem_mapRowGo (st : RangeStructure) (ri : Nat) :
    ∀ (vs : List String) (ci c : Nat) (v : String), vs.get? c = some v →
      mapCell st ri (ci + c) v ∈ mapRowGo st ri ci vs := by
  intro vs
  induction vs with
  | nil =>
    intro ci c v h
    simp at h
  | cons x xs ih =>
    intro ci c v h
    cases c with
    | zero =>
      rw [List.get?_cons_zero, Option.some.injEq] at h
      subst h
      rw [Nat.add_zero]
      exact List.mem_cons_self _ _
    | succ n =>
      rw [List.get?_cons_succ] at h
      have := ih (ci + 1) n v h
      rw [show ci + 1 + n = ci + (n + 1) by omega] at this
      exact List.mem_cons_of_mem _ this

lemma mem_mapRowsGo (st : RangeStructure) :
    ∀ (rows : List OLAPRow) (ri r : Nat) (row : OLAPRow), rows.get? r = some row →
      ∀ m ∈ mapRowGo st (ri + r) 0 row.data, m ∈ mapRowsGo st ri rows := by
  intro rows
  induction rows with
  | nil =>
    intro ri r row h
    simp at h
  | cons hd tl ih =>
    intro ri r row h m hm
    cases r with
    | zero =>
      rw [List.get?_cons_zero, Option.some.injEq] at h
      subst h
      rw [Nat.add_zero] at hm
      exact List.mem_append_left _ hm
    | succ n =>
      rw [List.get?_cons_succ] at h
      have := ih (ri + 1) n row h m (by rw [show ri + 1 + n = ri + (n + 1) by omega]; exact hm)
      exact List.mem_append_right _ this

/-- C8: `mapToExcelCells` maps the value at assembled row `r`, column `c`
to `targetRow = dataStartRow + r` and `targetCol = dataStartCol + c`; a
cell string "150" yields dataType `number`, value 150, number format
`#,##0.00` and right alignment, and an empty string yields dataType
`empty`. -/
theorem mapToExcelCells_positions (d : OLAPResponseData) (st : RangeStructure)
    (r c : Nat) (row : OLAPRow) (v : String)
    (h1 : d.rows.get? r = some row) (h2 : row.data.get? c = some v) :
    mapCell st r c v ∈ mapToExcelCells d st
    ∧ (mapCell st r c v).targetRow = st.dataStartRow + r
    ∧ (mapCell st r c v).targetCol = st.dataStartCol + c
    ∧ (mapCell st r c "150").dataType = CellDataType.number
    ∧ (mapCell st r c "150").value = JSValue.num 150
    ∧ ((mapCell st r c "150").formatting.getD emptyFormat).numberFormat = some "#,##0.00"
    ∧ ((mapCell st r c "150").formatting.getD emptyFormat).textAlign = some TextAlign.right
    ∧ (mapCell st r c "").dataType = CellDataType.empty := by
  refine ⟨?_, rfl, rfl, ?_, ?_, ?_, ?_, ?_⟩
  · have hrow := mem_mapRowGo st r row.data 0 c v h2
    rw [Nat.zero_add] at hrow
    have hmem := mem_mapRowsGo st d.rows 0 r row h1 (mapCell st r c v)
      (by rw [Nat.zero_add]; exact hrow)
    exact hmem
  · show determineDataType "150" = CellDataType.number
    decide
  · show parseValue "150" = JSValue.num 150
    decide
  · show (getDefaultFormatting (determineDataType "150")).numberFormat = some "#,##0.00"
    decide
  · show (getDefaultFormatting (determineDataType "150")).textAlign = some TextAlign.right
    decide
  · show determineDataType "" = CellDataType.empty
    decide

/-- Witness for C8 at a concrete input: the "150" cell of `respData150`
mapped against `stExample` lands at `(dataStartRow + 0, dataStartCol + 0)`
as a right-aligned `#,##0.00` number 150. -/
theorem mapToExcelCells_positions_witness :
    respData150.rows.get? 0 = some { data := ["150", "", "abc"], members := none }
    ∧ mapCell stExample 0 0 "150" ∈ mapToExcelCells respData150 stExample
    ∧ (mapCell stExample 0 0 "150").targetRow = stExample.dataStartRow + 0 :=
  ⟨by decide,
    (mapToExcelCells_positions respData150 stExample 0 0
      { data := ["150", "", "abc"], members := none } "150" (by decide) (by decide)).1,
    (mapToExcelCells_positions respData150 stExample 0 0
      { data := ["150", "", "abc"], members := none } "150" (by decide) (by decide)).2.1⟩

-- ========== grouping helper lemmas ==========

lemma numRows_addMappingToGroup (g : RangeGroup) (m : CellMapping) :
    (addMappingToGroup g m).numRows = g.numRows := by
  unfold addMappingToGroup
  split <;> rfl

lemma foldl_stepGroup_inv :
    ∀ (ms : List CellMapping) (acc : List RangeGroup × Option RangeGroup),
      (∀ g ∈ acc.1, g.numRows = 1) → (∀ g, acc.2 = some g → g.numRows = 1) →
      (∀ g ∈ (ms.foldl stepGroup acc).1, g.numRows = 1)
        ∧ (∀ g, (ms.foldl stepGroup acc).2 = some g → g.numRows = 1) := by
  intro ms
  induction ms with
  | nil => intro acc h1 h2; exact ⟨h1, h2⟩
  | cons m rest ih =>
    intro acc h1 h2
    rw [List.foldl_cons]
    apply ih
    · intro g hg
      unfold stepGroup at hg
      rcases hopt : acc.2 with _ | g0
      · rw [hopt] at hg
        exact h1 g hg
      · rw [hopt] at hg
        dsimp only at hg
        by_cases hcan : canAddToGroup g0 m
        · rw [if_pos hcan] at hg
          exact h1 g hg
        · rw [if_neg hcan] at hg
          rcases List.mem_append.mp hg with hgl | hgr
          · exact h1 g hgl
          · rw [List.mem_singleton] at hgr
            subst hgr
            exact h2 g hopt
    · intro g hg
      unfold stepGroup at hg
      rcases hopt : acc.2 with _ | g0
      · rw [hopt] at hg
        dsimp only at hg
        rw [Option.some.injEq] at hg
        subst hg
        rfl
      · rw [hopt] at hg
        dsimp only at hg
        by_cases hcan : canAddToGroup g0 m
        · rw [if_pos hcan, Option.some.injEq] at hg
          subst hg
          rw [numRows_addMappingToGroup]
          exact h2 g0 hopt
        · rw [if_neg hcan, Option.some.injEq] at hg
          subst hg
          rfl

/-- C9: the grouping of cell mappings sorts by `(targetRow, targetCol)`
and extends a group only to a strictly adjacent cell of the same row, so
every emitted `RangeGroup` is exactly one row tall; on same-row mappings
at columns 0, 1, 2 and 5 it produces exactly the two groups
`(startCol 0, numCols 3)` and `(startCol 5, numCols 1)`. -/
theorem groupMappings_single_row :
    (∀ (mappings : List CellMapping), ∀ g ∈ groupMappingsByRange mappings, g.numRows = 1)
    ∧ (groupMappingsByRange exampleMappings).map
        (fun g => (g.startRow, g.startCol, g.numRows, g.numCols))
      = [(0, 0, 1, 3), (0, 5, 1, 1)] := by
  constructor
  · intro mappings g hg
    unfold groupMappingsByRange at hg
    by_cases hemp : mappings.isEmpty
    · rw [if_pos hemp] at hg
      simp at hg
    · rw [if_neg hemp] at hg
      dsimp only at hg
      have hinv := foldl_stepGroup_inv (sortStableBy mappingLT mappings) ([], none)
        (by intro g0 hg0; simp at hg0) (by intro g0 hg0; simp at hg0)
      cases hres : ((sortStableBy mappingLT mappings).foldl stepGroup ([], none)).2 with
      | none =>
        rw [hres] at hg
        exact hinv.1 g hg
      | some g0 =>
        rw [hres] at hg
        rcases List.mem_append.mp hg with hgl | hgr
        · exact hinv.1 g hgl
        · rw [List.mem_singleton] at hgr
          subst hgr
          exact hinv.2 _ hres
  · decide

/-- Witness for C9's universally quantified part at a concrete group: the
first group of the example grouping is one row tall. -/
theorem groupMappings_single_row_witness :
    ((groupMappingsByRange exampleMappings).headD (newGroup (mkMapping 0 0)))
        ∈ groupMappingsByRange exampleMappings
    ∧ ((groupMappingsByRange exampleMappings).headD (newGroup (mkMapping 0 0))).numRows = 1 :=
  ⟨by decide,
    groupMappings_single_row.1 exampleMappings
      ((groupMappingsByRange exampleMappings).headD (newGroup (mkMapping 0 0))) (by decide)⟩

-- ========== value-parsing helper lemmas ==========

lemma jsParseFloat_of_startsWithEq (s : String) (h : jsStartsWithEq s = true) :
    jsParseFloat s = none := by
  unfold jsStartsWithEq at h
  rcases hd : s.data with _ | ⟨c, rest⟩
  · rw [hd] at h
    simp at h
  · rw [hd] at h
    have hc : c = '=' := by simpa using h
    subst hc
    show parseFloatList s.data = none
    rw [hd]
    rfl

/-- C10: a response-cell string whose `parseFloat` prefix is a finite
number is classified as a `number` and written with the prefix-parsed
value, whatever trailing characters follow - whole-string numeric
validity is never checked; in particular "150abc" yields dataType
`number` with value 150. -/
theorem determineDataType_leading_digits (s : String) (q : ℚ)
    (h1 : jsParseFloat s = some q) (h2 : jsIsFinite q = true) :
    determineDataType s = CellDataType.number ∧ parseValue s = JSValue.num q
    ∧ determineDataType "150abc" = CellDataType.number
    ∧ parseValue "150abc" = JSValue.num 150 := by
  have hs : s ≠ "" := by
    intro he
    rw [he] at h1
    rw [show jsParseFloat "" = none from rfl] at h1
    exact Option.noConfusion h1
  have hne : ¬ (jsStartsWithEq s = true) := by
    intro hb
    rw [jsParseFloat_of_startsWithEq s hb] at h1
    exact Option.noConfusion h1
  refine ⟨?_, ?_, by decide, by decide⟩
  · unfold determineDataType
    rw [if_neg hs, if_neg hne, h1]
    dsimp only
    rw [if_pos h2]
  · unfold parseValue
    rw [if_neg hs, h1]
    dsimp only
    rw [if_pos h2]

/-- Witness for C10 at the concrete input "150abc": its `parseFloat`
prefix is the finite 150 and the mapper classifies it as a number. -/
theorem determineDataType_leading_digits_witness :
    jsParseFloat "150abc" = some 150
    ∧ jsIsFinite 150 = true
    ∧ determineDataType "150abc" = CellDataType.number :=
  ⟨by decide, by decide,
    (determineDataType_leading_digits "150abc" 150 (by decide) (by decide)).1⟩
